import Mathlib

/-!
Shallow embedding, in Lean 4, of the MCP wrapper-generator demo
(`generate_wrappers.py`, the Python client body it emits, and the
simulated data server `mcp_servers/data_mcp_server.py`), together with
theorems settling the frozen claims about it.

Conventions of the embedding:
* Python `dict`s that are used as ordered key/value records are modelled
  as association lists (`List (String × _)`), preserving insertion order
  exactly as CPython does.
* Python machine-level integers are unbounded, so they are modelled as
  `Int`; Python `%` with a positive divisor agrees with `Int.emod`,
  which is Lean's `%` on `Int`.
* Fallible steps of the generated client (`session.initialize`,
  `session.call_tool`) are modelled with `Except`/`Bool` outcome
  parameters; `json.loads` is modelled by an arbitrary partial parse
  function `String → Option V`, since the client only distinguishes
  "parses" from "raises JSONDecodeError".
-/

namespace McpDemo

/-! ## `generate_wrappers.py`: sanitize_name -/

/-- Character-level action of `sanitize_name`: `-` and `.` become `_`,
every other character is kept.  (In the source the function is
`name.replace("-", "_").replace(".", "_")`; both patterns are single
characters and the replacement `_` is neither `-` nor `.`, so the two
sequential replacements are exactly this character map.) -/
def sanitizeChar (c : Char) : Char :=
  if c = '-' ∨ c = '.' then '_' else c

/-- `sanitize_name(name)`: convert a tool name to a Python identifier by
replacing every hyphen and every dot with an underscore. -/
def sanitize_name (name : String) : String :=
  String.mk (name.data.map sanitizeChar)

/-- An ASCII Python-identifier character: letter, digit or underscore. -/
def isIdentChar (c : Char) : Bool :=
  c.isAlpha || c.isDigit || c = '_'

/-- A character that may start an ASCII Python identifier. -/
def isIdentStart (c : Char) : Bool :=
  c.isAlpha || c = '_'

/-- Validity of an (ASCII) Python identifier: non-empty, the first
character is a letter or underscore, the rest are letters, digits or
underscores. -/
def isPythonIdentifier (s : String) : Bool :=
  match s.data with
  | [] => false
  | c :: cs => isIdentStart c && cs.all isIdentChar

/-! ## `generate_wrappers.py`: get_python_type -/

/-- A JSON-schema fragment as `get_python_type` and the signature builder
consume it: the Python value is a `dict` (possibly empty); what the code
reads from it is its truthiness (`if not json_schema`), its `"type"` key
and its `"description"` key.  `isTruthy = false` models the empty dict
(and `None`), which are the falsy inputs. -/
structure JsonSchema where
  isTruthy : Bool
  typeField : Option String
  descField : Option String
deriving DecidableEq, Repr

/-- An empty or absent schema dict: falsy, no keys. -/
def JsonSchema.emptyDict : JsonSchema := ⟨false, none, none⟩

/-- The literal `type_mapping` dict of the source, as a lookup
function: `dict.get(type_str, "Any")` is `(type_mapping t).getD "Any"`. -/
def type_mapping (t : String) : Option String :=
  if t = "string" then some "str"
  else if t = "integer" then some "int"
  else if t = "number" then some "float"
  else if t = "boolean" then some "bool"
  else if t = "array" then some "list"
  else if t = "object" then some "dict"
  else if t = "null" then some "None"
  else none

/-- `get_python_type(json_schema)`: `"Any"` for a falsy schema, else the
mapped value of `json_schema.get("type", "any")`, defaulting to
`"Any"`. -/
def get_python_type (json_schema : JsonSchema) : String :=
  if !json_schema.isTruthy then "Any"
  else (type_mapping (json_schema.typeField.getD "any")).getD "Any"

/-! ## `generate_wrappers.py`: generate_wrapper_file -/

/-- A `ToolDescriptor` as `generate_wrapper_file` reads it: `tool.name`,
`tool.description` (`none` models Python `None`), and the input schema's
`"properties"` dict (ordered) and `"required"` list. -/
structure Tool where
  name : String
  description : Option String
  properties : List (String × JsonSchema)
  required : List String
deriving DecidableEq, Repr

/-- `tool.description or "No description available."`: Python `or`
falls through on `None` and on the empty string (both falsy). -/
def descriptionOr (d : Option String) : String :=
  match d with
  | none => "No description available."
  | some s => if s = "" then "No description available." else s

/-- One entry of the `params` list of `generate_wrapper_file`: rendered
`"name: type"` for a required parameter, `"name: type = None"` for an
optional one (`if param_name in required`). -/
def paramString (required : List String) (p : String × JsonSchema) : String :=
  if p.1 ∈ required then p.1 ++ ": " ++ get_python_type p.2
  else p.1 ++ ": " ++ get_python_type p.2 ++ " = None"

/-- The `params` list built by `generate_wrapper_file`: one rendered
entry per property, in the properties dict's insertion order (the code
iterates `properties.items()` and never reorders). -/
def paramsOf (t : Tool) : List String :=
  t.properties.map (paramString t.required)

/-- `params_str = ", ".join(params) if params else ""` (the join of an
empty list is already `""`). -/
def params_str (t : Tool) : String :=
  String.intercalate ", " (paramsOf t)

/-- The emitted `def` header line for one tool. -/
def defLine (t : Tool) : String :=
  "def " ++ sanitize_name t.name ++ "(" ++ params_str t ++ ") -> Any:"

/-- The emitted docstring lines for one tool: opening quotes, the
description, and (when there are properties) an `Args:` block with one
line per parameter (`param_schema.get("description", "")`). -/
def docLines (t : Tool) : List String :=
  ["    \"\"\"", "    " ++ descriptionOr t.description]
  ++ (if t.properties ≠ [] then
        ["    ", "    Args:"]
        ++ t.properties.map (fun p => "        " ++ p.1 ++ ": " ++ (p.2.descField.getD ""))
      else [])
  ++ ["    \"\"\""]

/-- The single invocation statement of an emitted proxy body:
`return call_mcp_tool("<server>", "<tool>",` followed by the opening
brace of the argument mapping. -/
def callLine (server_name : String) (t : Tool) : String :=
  "    return call_mcp_tool(\"" ++ server_name ++ "\", \"" ++ t.name ++ "\", \x7b"

/-- One entry of the argument mapping of the emitted call:
`"<param>": <param>,` — emitted for every declared property, required or
optional alike. -/
def argEntryLine (p : String × JsonSchema) : String :=
  "        \"" ++ p.1 ++ "\": " ++ p.1 ++ ","

/-- The emitted body lines for one tool: a single `return call_mcp_tool`
statement whose argument mapping lists every declared property (required
or optional) once, in declaration order, followed by the closing lines. -/
def bodyLines (server_name : String) (t : Tool) : List String :=
  [callLine server_name t]
  ++ t.properties.map argEntryLine
  ++ ["    \x7d)", "", ""]

/-- All lines `generate_wrapper_file` appends for one tool. -/
def toolLines (server_name : String) (t : Tool) : List String :=
  [defLine t] ++ docLines t ++ bodyLines server_name t

/-- The fixed header of a generated wrapper module. -/
def wrapperHeaderLines (server_name : String) : List String :=
  ["\"\"\"",
   "Auto-generated wrappers for " ++ server_name ++ " MCP server.",
   "",
   "These functions can be imported and called from code execution environments.",
   "They make calls to the underlying MCP server.",
   "\"\"\"",
   "",
   "from typing import Any",
   "from .mcp_client import call_mcp_tool",
   "",
   ""]

/-- The full line list written by `generate_wrapper_file server_name
mcp_tools`: header, then the per-tool blocks in order.  The function has
no failure path: it always writes this list and returns the tool
names. -/
def generate_wrapper_lines (server_name : String) (mcp_tools : List Tool) : List String :=
  wrapperHeaderLines server_name ++ mcp_tools.flatMap (toolLines server_name)

/-- The value `generate_wrapper_file` returns:
`[tool.name for tool in mcp_tools]`. -/
def generate_wrapper_names (mcp_tools : List Tool) : List String :=
  mcp_tools.map Tool.name

/-! ## `generate_wrappers.py`: generate_init_file -/

/-- The `__all__` entry lines of the generated `__init__.py`: one quoted
line per tool name, over every server's tool list, with no
deduplication and no collision check. -/
def initAllEntries (server_tools : List (String × List String)) : List String :=
  server_tools.flatMap (fun st => st.2.map (fun tn => "    \"" ++ tn ++ "\","))

/-- The import lines of the generated `__init__.py`: per server, a
single `from .<sanitized> import <tool names>` line joining the raw
(unsanitized) tool names. -/
def initImportLines (server_tools : List (String × List String)) : List String :=
  server_tools.map (fun st =>
    "from ." ++ sanitize_name st.1 ++ " import " ++ String.intercalate ", " st.2)

/-- The full line list written by `generate_init_file`. -/
def generate_init_lines (server_tools : List (String × List String)) : List String :=
  ["\"\"\"",
   "MCP tool wrappers for code execution.",
   "",
   "Import MCP tools directly:",
   "    from mcp_tools import get_total_pages, get_data_chunk",
   "",
   "Or import from specific servers:",
   "    from mcp_tools.data_tools import get_total_pages",
   "\"\"\"",
   ""]
  ++ initImportLines server_tools
  ++ ["", "__all__ = ["]
  ++ initAllEntries server_tools
  ++ ["]", ""]

/-! ## The emitted invocation client (`mcp_client.py` body of
`generate_mcp_client`): decode of the response content -/

/-- One element of `result.content`: the client only distinguishes
segments that have a `.text` attribute from those that do not. -/
inductive Segment where
  | text (s : String)
  | nonText
deriving DecidableEq, Repr

/-- `hasattr(item, "text")`, returning the text when present. -/
def Segment.textOf : Segment → Option String
  | .text s => some s
  | .nonText => none

/-- The four result shapes the emitted `call_mcp_tool` can return
(the spec's `InvocationResult` tagged union): a structured value (a
successful `json.loads`), the raw text (decode fallback), a list of raw
texts, or `None`. -/
inductive InvocationResult (V : Type) where
  | structured (v : V)
  | rawText (s : String)
  | multiText (ts : List String)
  | empty
deriving DecidableEq, Repr

/-- The decode of the emitted `call_mcp_tool` body, with `json.loads`
abstracted as `parse`:

* falsy `result.content` (no content) returns `None`;
* exactly one segment carrying text: `json.loads` on success, the raw
  text on `JSONDecodeError`;
* otherwise (several segments, or one segment without text) the code
  falls through to the `texts` loop, collecting the texts of exactly the
  text-bearing segments. -/
def decodeContent {V : Type} (parse : String → Option V)
    (content : List Segment) : InvocationResult V :=
  match content with
  | [] => .empty
  | [seg] =>
    match seg.textOf with
    | some t =>
      match parse t with
      | some v => .structured v
      | none => .rawText t
    | none => .multiText (content.filterMap Segment.textOf)
  | _ => .multiText (content.filterMap Segment.textOf)

/-! ## The emitted invocation client: session lifecycle -/

/-- Error outcomes the emitted `_call` can propagate after the transport
context has been entered: a failed `session.initialize` (handshake or
transport failure) or a failed `session.call_tool` (remote-reported tool
error or transport failure). -/
inductive CallError where
  | initError
  | toolError
deriving DecidableEq, Repr

/-- Teardown counters: how many times each of the two nested
`async with` contexts (`ClientSession`, `stdio_client`) has run its
exit/cleanup step. -/
structure RunState where
  sessionClosed : Nat
  transportClosed : Nat
deriving DecidableEq, Repr

/-- Python context-manager semantics (`async with`): run the body, then
run the exit step exactly once, whether the body returned a value or
raised — `__aexit__` runs on both the normal and the exceptional exit of
the block. -/
def withCtx {α : Type} (body : RunState → Except CallError α × RunState)
    (exitStep : RunState → RunState) (s : RunState) :
    Except CallError α × RunState :=
  let r := body s
  (r.1, exitStep r.2)

/-- The emitted `_call` body: enter `stdio_client`, enter
`ClientSession`, `await session.initialize()` (outcome `initOk`),
`await session.call_tool(...)` (outcome `callResult`), decode the
content, and let both `async with` blocks unwind.  Decode itself never
raises: `json.loads` failure is caught and falls back to raw text. -/
def call_mcp_tool_run {V : Type} (parse : String → Option V)
    (initOk : Bool) (callResult : Except Unit (List Segment)) :
    Except CallError (InvocationResult V) × RunState :=
  withCtx
    (fun s =>
      withCtx
        (fun s' =>
          if !initOk then (.error .initError, s')
          else
            match callResult with
            | .error _ => (.error .toolError, s')
            | .ok content => (.ok (decodeContent parse content), s'))
        (fun s' => { s' with sessionClosed := s'.sessionClosed + 1 })
        s)
    (fun s => { s with transportClosed := s.transportClosed + 1 })
    ⟨0, 0⟩

/-! ## `mcp_servers/data_mcp_server.py` -/

/-- JSON-serialisable Python values, as the data server returns them. -/
inductive JVal where
  | jnum (n : Int)
  | jstr (s : String)
  | jbool (b : Bool)
  | jlist (xs : List JVal)
  | jobj (fields : List (String × JVal))

/-- Key lookup in an ordered field list (Python `dict` access). -/
def jlookup (fields : List (String × JVal)) (k : String) : Option JVal :=
  match fields with
  | [] => none
  | (k', v) :: rest => if k' = k then some v else jlookup rest k

/-- `v[k]` when `v` is an object. -/
def JVal.getField (v : JVal) (k : String) : Option JVal :=
  match v with
  | .jobj fields => jlookup fields k
  | _ => none

/-- The list under `v` when `v` is a list. -/
def JVal.asList (v : JVal) : List JVal :=
  match v with
  | .jlist xs => xs
  | _ => []

/-- The `activities` list of `_get_activity_type`. -/
def activities : List String :=
  ["login", "page_view", "api_call", "file_upload", "search"]

/-- `_get_activity_type(record_id)`: index `activities` at
`record_id % len(activities)` (Python `%` with a positive divisor is
`Int.emod`, so the index is always in range). -/
def _get_activity_type (record_id : Int) : String :=
  (activities.get? (record_id % 5).toNat).getD ""

/-- Python's width-2 zero-padded format spec `02d`: left-pad the decimal
form with zeros to width two (only a single `0` can ever be added; any
`n` outside `0..9` already prints at width ≥ 2). -/
def pad2 (n : Int) : String :=
  if 0 ≤ n ∧ n < 10 then "0" ++ toString n else toString n

/-- One record of `get_data_chunk`'s loop body, for loop index
`i ∈ range(10)`. -/
def recordAt (page : Int) (i : Nat) : JVal :=
  let record_id : Int := (page - 1) * 10 + i + 1
  .jobj
    [("id", .jnum record_id),
     ("user_id", .jstr ("user_" ++ toString (record_id % 7 + 1))),
     ("activity", .jstr (_get_activity_type record_id)),
     ("timestamp", .jstr ("2024-01-" ++ pad2 page ++ "T" ++ pad2 i ++ ":00:00Z")),
     ("metadata", .jobj
       [("duration_seconds", .jnum ((record_id * 13) % 120 + 10)),
        ("success", .jbool (record_id % 4 != 0))])]

/-- `get_data_chunk(page)`: an error object (with empty `records`) for
`page < 1 or page > 30`, else the page object with ten generated
records. -/
def get_data_chunk (page : Int) : JVal :=
  if page < 1 ∨ page > 30 then
    .jobj
      [("error", .jstr ("Invalid page number: " ++ toString page
          ++ ". Must be between 1 and 30.")),
       ("records", .jlist [])]
  else
    .jobj
      [("page", .jnum page),
       ("total_pages", .jnum 30),
       ("records", .jlist ((List.range 10).map (recordAt page)))]

/-- `get_total_pages()`: always 30. -/
def get_total_pages : Int := 30

/-- The `records` list of `get_data_chunk page`. -/
def chunkRecords (page : Int) : List JVal :=
  match (get_data_chunk page).getField "records" with
  | some r => r.asList
  | none => []

/-- The `id` fields of the records of `get_data_chunk page`, in list
order. -/
def chunkRecordIds (page : Int) : List Int :=
  (chunkRecords page).filterMap (fun r =>
    match r.getField "id" with
    | some (.jnum n) => some n
    | _ => none)

/-! ## Helper definitions for the claim theorems -/

/-- The first character of a line, if any. -/
def firstChar (s : String) : Option Char := s.data.head?

/-- The character at index 4 of a line, if any: every emitted statement
line starts with a 4-space indent, so this is the first character of the
statement proper. -/
def lineTag (s : String) : Option Char := (s.data.drop 4).head?

/-- Modelled from the spec: the parameter list the spec's sentence
"places all required parameters first (in schema-declaration order),
followed by optional parameters" describes — the required-flagged
properties (in declaration order), then the others, each rendered
exactly as the generator renders it.  Kept separate from `paramsOf`
(the order the source actually emits) so the two can be compared. -/
def requiredFirstParams (t : Tool) : List String :=
  (t.properties.filter (fun p => decide (p.1 ∈ t.required))).map (paramString t.required)
  ++ (t.properties.filter (fun p => !decide (p.1 ∈ t.required))).map (paramString t.required)

/-- Fixture: a tool whose schema declares an optional parameter before a
required one. -/
def toolOptFirst : Tool :=
  ⟨"t", none,
   [("opt", ⟨true, some "integer", none⟩), ("req", ⟨true, some "string", none⟩)],
   ["req"]⟩

/-- Fixture: a tool whose schema declares its required parameter before
its optional one. -/
def toolReqFirst : Tool :=
  ⟨"t2", none,
   [("req", ⟨true, some "string", none⟩), ("opt", ⟨true, some "integer", none⟩)],
   ["req"]⟩

/-- Fixture: a tool named `a-b`; sanitizes to `a_b`. -/
def toolA : Tool := ⟨"a-b", none, [], []⟩

/-- Fixture: a tool named `a.b`; also sanitizes to `a_b`. -/
def toolB : Tool := ⟨"a.b", none, [], []⟩

/-- Fixture: a tool shaped like the demo's `get_data_chunk` descriptor. -/
def sampleTool : Tool :=
  ⟨"get_data_chunk",
   some "Fetch a chunk of user activity data for a specific page.",
   [("page", ⟨true, some "integer", some "The page number to fetch"⟩)],
   ["page"]⟩

/-! ## Helper lemmas -/

/-- Lines with different tag characters are different lines. -/
theorem ne_of_lineTag {s t : String} (h : lineTag s ≠ lineTag t) : s ≠ t := by
  intro he; exact h (by rw [he])

/-- Lines with different first characters are different lines. -/
theorem ne_of_firstChar {s t : String} (h : firstChar s ≠ firstChar t) : s ≠ t := by
  intro he; exact h (by rw [he])

/-- The call statement's tag is the `r` of `return`. -/
theorem lineTag_callLine (sn : String) (t : Tool) : lineTag (callLine sn t) = some 'r' := by
  unfold callLine lineTag
  simp only [String.data_append]
  rfl

/-- The call statement starts with its indent. -/
theorem firstChar_callLine (sn : String) (t : Tool) :
    firstChar (callLine sn t) = some ' ' := by
  unfold callLine firstChar
  simp only [String.data_append]
  rfl

/-- A `def` header starts with `d`. -/
theorem firstChar_defLine (t : Tool) : firstChar (defLine t) = some 'd' := by
  unfold defLine firstChar
  simp only [String.data_append]
  rfl

/-- An argument-mapping entry is indented by eight spaces, so its tag is
a space. -/
theorem lineTag_argEntryLine (p : String × JsonSchema) :
    lineTag (argEntryLine p) = some ' ' := by
  unfold argEntryLine lineTag
  simp only [String.data_append]
  rfl

/-- A per-parameter docstring line is indented by eight spaces, so its
tag is a space. -/
theorem lineTag_docParamLine (p : String × JsonSchema) :
    lineTag ("        " ++ p.1 ++ ": " ++ (p.2.descField.getD "")) = some ' ' := by
  unfold lineTag
  simp only [String.data_append]
  rfl

/-- The call statement never occurs among the docstring lines of its own
tool, provided the tool's description line is not literally the call
statement (the description sits inside the docstring, so even then it
would not be executable code; the proviso only serves the line count). -/
theorem callLine_notMem_docLines (sn : String) (t : Tool)
    (hdesc : "    " ++ descriptionOr t.description ≠ callLine sn t) :
    callLine sn t ∉ docLines t := by
  intro hmem
  unfold docLines at hmem
  simp only [List.cons_append, List.nil_append, List.mem_cons, List.mem_append] at hmem
  rcases hmem with h | h | h
  · exact absurd (lineTag_callLine sn t) (by rw [h]; decide)
  · exact hdesc h.symm
  · rcases h with h | h
    · split at h
      · simp only [List.mem_append, List.mem_cons, List.mem_map, List.not_mem_nil,
          or_false] at h
        rcases h with h | h | ⟨p, _, h⟩
        · exact absurd (lineTag_callLine sn t) (by rw [h]; decide)
        · exact absurd (lineTag_callLine sn t) (by rw [h]; decide)
        · exact absurd (lineTag_callLine sn t) (by rw [← h, lineTag_docParamLine]; decide)
      · exact absurd h (List.not_mem_nil _)
    · rcases h with h | h
      · exact absurd (lineTag_callLine sn t) (by rw [h]; decide)
      · exact absurd h (List.not_mem_nil _)

/-- The executable body of one emitted proxy contains its call statement
exactly once. -/
theorem count_callLine_bodyLines (sn : String) (t : Tool) :
    (bodyLines sn t).count (callLine sn t) = 1 := by
  unfold bodyLines
  rw [List.count_append, List.count_append]
  have h1 : ([callLine sn t] : List String).count (callLine sn t) = 1 := by
    simp [List.count_singleton]
  have h2 : (t.properties.map argEntryLine).count (callLine sn t) = 0 := by
    rw [List.count_eq_zero]
    intro hmem
    rcases List.mem_map.mp hmem with ⟨p, _, h⟩
    exact absurd (lineTag_callLine sn t) (by rw [← h, lineTag_argEntryLine]; decide)
  have h3 : (["    \x7d)", "", ""] : List String).count (callLine sn t) = 0 := by
    rw [List.count_eq_zero]
    intro hmem
    simp only [List.mem_cons, List.not_mem_nil, or_false] at hmem
    rcases hmem with h | h | h <;>
      exact absurd (lineTag_callLine sn t) (by rw [h]; decide)
  rw [h1, h2, h3]

/-- A sanitized character of a name made of identifier characters,
hyphens and dots is an identifier character. -/
theorem sanitizeChar_identChar (c : Char)
    (h : isIdentChar c = true ∨ c = '-' ∨ c = '.') :
    isIdentChar (sanitizeChar c) = true := by
  unfold sanitizeChar
  split_ifs with hc
  · decide
  · rcases h with h | h | h
    · exact h
    · exact absurd (Or.inl h) hc
    · exact absurd (Or.inr h) hc

/-- A sanitized non-digit character of such a name may start an
identifier. -/
theorem sanitizeChar_identStart (c : Char)
    (h : isIdentChar c = true ∨ c = '-' ∨ c = '.')
    (hd : c.isDigit = false) :
    isIdentStart (sanitizeChar c) = true := by
  unfold sanitizeChar
  split_ifs with hc
  · decide
  · rcases h with h | h | h
    · simp [isIdentChar, hd] at h
      rcases h with h | h
      · simp [isIdentStart, h]
      · simp [isIdentStart, h]
    · exact absurd (Or.inl h) hc
    · exact absurd (Or.inr h) hc

/-- On a valid page the record-id list is the arithmetic progression
starting at `(page - 1) * 10 + 1`. -/
theorem chunkRecordIds_eq (page : Int) (h1 : 1 ≤ page) (h2 : page ≤ 30) :
    chunkRecordIds page
      = (List.range 10).map (fun i : Nat => (page - 1) * 10 + (i : Int) + 1) := by
  unfold chunkRecordIds chunkRecords get_data_chunk
  rw [if_neg (by omega)]
  show List.filterMap _ ((List.range 10).map (recordAt page)) = _
  rw [List.filterMap_map]
  have hfun : ((fun r : JVal =>
      match r.getField "id" with
      | some (.jnum n) => some n
      | _ => none) ∘ recordAt page) =
      (some ∘ fun i : Nat => (page - 1) * 10 + (i : Int) + 1) := by
    funext i
    simp [recordAt, JVal.getField, jlookup]
  rw [hfun, List.filterMap_eq_map]

/-- Membership in a valid page's record-id list is exactly the interval
condition. -/
theorem mem_chunkRecordIds (page n : Int) (h1 : 1 ≤ page) (h2 : page ≤ 30) :
    n ∈ chunkRecordIds page ↔ (page - 1) * 10 + 1 ≤ n ∧ n ≤ page * 10 := by
  rw [chunkRecordIds_eq page h1 h2]
  simp only [List.mem_map, List.mem_range]
  constructor
  · rintro ⟨i, hi, rfl⟩; omega
  · intro h
    exact ⟨(n - ((page - 1) * 10 + 1)).toNat, by omega, by omega⟩

/-! ## Claim theorems -/

/-- Claim C1: the decode of the emitted `call_mcp_tool` body returns
exactly one of four shapes — for a single text segment, the parsed
structured value when `json.loads` succeeds and the raw text when it
fails; for an envelope of several segments, the list of the raw texts of
the text-bearing segments (non-text segments dropped); for an empty
envelope, the absent result (`None`). -/
theorem call_mcp_tool_decode_shapes {V : Type} (parse : String → Option V) :
    (∀ s v, parse s = some v →
      decodeContent parse [Segment.text s] = .structured v) ∧
    (∀ s, parse s = none →
      decodeContent parse [Segment.text s] = .rawText s) ∧
    (∀ content : List Segment, 2 ≤ content.length →
      decodeContent parse content = .multiText (content.filterMap Segment.textOf)) ∧
    decodeContent parse ([] : List Segment) = .empty := by
  refine ⟨?_, ?_, ?_, rfl⟩
  · intro s v h; simp [decodeContent, Segment.textOf, h]
  · intro s h; simp [decodeContent, Segment.textOf, h]
  · intro content h
    match content, h with
    | a :: b :: rest, _ => rfl

/-- Witness for C1: the four decode shapes at concrete inputs, with a
concrete parse function that accepts exactly the string `7`. -/
theorem call_mcp_tool_decode_shapes_witness :
    decodeContent (fun s => if s = "7" then some (7 : Int) else none)
      [Segment.text "7"] = .structured 7 ∧
    decodeContent (fun s => if s = "7" then some (7 : Int) else none)
      [Segment.text "x"] = .rawText "x" ∧
    decodeContent (fun s => if s = "7" then some (7 : Int) else none)
      [Segment.text "a", Segment.nonText, Segment.text "b"] = .multiText ["a", "b"] ∧
    decodeContent (fun s => if s = "7" then some (7 : Int) else none)
      ([] : List Segment) = .empty := by
  have h := call_mcp_tool_decode_shapes (fun s => if s = "7" then some (7 : Int) else none)
  exact ⟨h.1 "7" 7 (by decide), h.2.1 "x" (by decide),
    (h.2.2.1 [Segment.text "a", Segment.nonText, Segment.text "b"] (by decide)).trans rfl,
    h.2.2.2⟩

/-- Claim C2: for every outcome of the emitted `call_mcp_tool` — success
(with any content, so also the decode-fallback case, since decode is
total), failed handshake (`initialize` raising, covering transport
failure on the established connection) and remote-reported tool error
(`call_tool` raising) — the session teardown and the transport teardown
each execute exactly once: no exit path skips them, none runs them
twice.  (Both `async with` exits are modelled by `withCtx`, which is
Python's guarantee that the exit step runs on normal and exceptional
exit alike; the model starts at the point where the transport context
has been entered, which is where the spec's state machine acquires its
first resource.) -/
theorem call_teardown_exactly_once {V : Type} (parse : String → Option V)
    (initOk : Bool) (callResult : Except Unit (List Segment)) :
    (call_mcp_tool_run parse initOk callResult).2.sessionClosed = 1 ∧
    (call_mcp_tool_run parse initOk callResult).2.transportClosed = 1 := by
  unfold call_mcp_tool_run withCtx
  cases initOk <;> cases callResult <;> simp

/-- Claim C3, counterexample: a tool whose schema declares an optional
parameter before a required one.  The generator emits the parameters in
schema-declaration order, not required-first, so the emitted list
differs from the spec's required-first list (and is not even a valid
Python signature, since a defaulted parameter precedes an undefaulted
one). -/
theorem proxy_param_order_counterexample :
    paramsOf toolOptFirst ≠ requiredFirstParams toolOptFirst ∧
    paramsOf toolOptFirst = ["opt: int = None", "req: str"] ∧
    requiredFirstParams toolOptFirst = ["req: str", "opt: int = None"] := by
  decide

/-- Claim C3, amended: the emitted parameter list follows
schema-declaration order, with each required parameter rendered bare and
each optional parameter defaulted to the absent sentinel `None`; *when*
the schema declares all required parameters before all optional ones,
the list therefore places the required parameters first (in declaration
order) followed by the defaulted optional ones, agreeing with the
spec-modelled `requiredFirstParams`; and the proxy always accepts
exactly N required plus M optional parameters (one per declared
property). -/
theorem proxy_param_order_amended (t : Tool) (A B : List (String × JsonSchema))
    (hsplit : t.properties = A ++ B)
    (hA : ∀ p ∈ A, p.1 ∈ t.required)
    (hB : ∀ p ∈ B, p.1 ∉ t.required) :
    paramsOf t = A.map (paramString t.required) ++ B.map (paramString t.required) ∧
    (∀ p ∈ A, paramString t.required p = p.1 ++ ": " ++ get_python_type p.2) ∧
    (∀ p ∈ B, paramString t.required p = p.1 ++ ": " ++ get_python_type p.2 ++ " = None") ∧
    paramsOf t = requiredFirstParams t ∧
    (paramsOf t).length = A.length + B.length := by
  have hfA : t.properties.filter (fun p => decide (p.1 ∈ t.required)) = A := by
    rw [hsplit, List.filter_append]
    rw [List.filter_eq_self.mpr (fun p hp => by simp [hA p hp])]
    rw [List.filter_eq_nil_iff.mpr (fun p hp => by simp [hB p hp])]
    simp
  have hfB : t.properties.filter (fun p => !decide (p.1 ∈ t.required)) = B := by
    rw [hsplit, List.filter_append]
    rw [List.filter_eq_nil_iff.mpr (fun p hp => by simp [hA p hp])]
    rw [List.filter_eq_self.mpr (fun p hp => by simp [hB p hp])]
    simp
  refine ⟨?_, ?_, ?_, ?_, ?_⟩
  · rw [paramsOf, hsplit, List.map_append]
  · intro p hp; simp [paramString, hA p hp]
  · intro p hp; simp [paramString, hB p hp]
  · rw [requiredFirstParams, hfA, hfB, paramsOf, hsplit, List.map_append]
  · rw [paramsOf, hsplit]; simp

/-- Witness for the amended C3: a concrete required-before-optional
tool, with the emitted list evaluated. -/
theorem proxy_param_order_amended_witness :
    paramsOf toolReqFirst = ["req: str", "opt: int = None"] ∧
    paramsOf toolReqFirst = requiredFirstParams toolReqFirst ∧
    (paramsOf toolReqFirst).length = 1 + 1 := by
  have h := proxy_param_order_amended toolReqFirst
    [("req", ⟨true, some "string", none⟩)] [("opt", ⟨true, some "integer", none⟩)]
    rfl (by decide) (by decide)
  exact ⟨h.1.trans (by decide), h.2.2.2.1, h.2.2.2.2.trans (by decide)⟩

/-- Claim C4, counterexample: `my tool` contains a non-identifier
character (the space), but `sanitize_name` only replaces hyphens and
dots, so the sanitized result still contains the space and is not a
valid identifier. -/
theorem sanitize_name_counterexample :
    (∃ c ∈ ("my tool" : String).data, isIdentChar c = false) ∧
    sanitize_name "my tool" = "my tool" ∧
    isPythonIdentifier (sanitize_name "my tool") = false := by
  decide

/-- Claim C4, amended: `sanitize_name` is deterministic (a pure function
of its input), and for every non-empty tool name whose characters are
all identifier characters, hyphens or dots, and whose first character is
not a digit, the sanitized result is a valid identifier.  (For names
with other non-identifier characters — spaces, slashes, leading digits —
the result need not be a valid identifier, as the counterexample
shows.) -/
theorem sanitize_name_amended :
    (∀ name : String, name.data ≠ [] →
      (∀ c ∈ name.data, isIdentChar c = true ∨ c = '-' ∨ c = '.') →
      (∀ c, name.data.head? = some c → c.isDigit = false) →
      isPythonIdentifier (sanitize_name name) = true) ∧
    (∀ a b : String, a = b → sanitize_name a = sanitize_name b) := by
  constructor
  · intro name hne hall hhead
    rcases hd : name.data with _ | ⟨c, cs⟩
    · exact absurd hd hne
    · have hs : sanitize_name name = String.mk (sanitizeChar c :: cs.map sanitizeChar) := by
        simp [sanitize_name, hd]
      rw [hs]
      show (isIdentStart (sanitizeChar c) && (cs.map sanitizeChar).all isIdentChar) = true
      rw [Bool.and_eq_true]
      constructor
      · exact sanitizeChar_identStart c
          (hall c (by rw [hd]; exact List.mem_cons_self c cs))
          (hhead c (by rw [hd]; rfl))
      · rw [List.all_eq_true]
        intro x hx
        rcases List.mem_map.mp hx with ⟨y, hy, rfl⟩
        exact sanitizeChar_identChar y
          (hall y (by rw [hd]; exact List.mem_cons_of_mem c hy))
  · intro a b h; rw [h]

/-- Witness for the amended C4: a concrete name containing a hyphen and
a dot sanitizes to a valid identifier, deterministically. -/
theorem sanitize_name_amended_witness :
    isPythonIdentifier (sanitize_name "a-b.c") = true ∧
    sanitize_name "a-b.c" = sanitize_name "a-b.c" := by
  have h := sanitize_name_amended
  exact ⟨h.1 "a-b.c" (by decide) (by decide) (by decide), h.2 "a-b.c" "a-b.c" rfl⟩

/-- Claim C5: the executable body emitted for a tool performs exactly
one invocation of the invocation client — its statements are a single
`return call_mcp_tool(server, tool, mapping)` (so the decoded result is
returned unchanged, with no caching or batching) — and the argument
mapping has one entry per declared property, optional parameters (left
at the sentinel) included; the call statement also occurs exactly once
in the tool's whole emitted block (the description-line proviso only
excludes a docstring line that textually coincides with the call
statement). -/
theorem proxy_body_single_invocation (server_name : String) (t : Tool)
    (hdesc : "    " ++ descriptionOr t.description ≠ callLine server_name t) :
    (bodyLines server_name t).count (callLine server_name t) = 1 ∧
    (toolLines server_name t).count (callLine server_name t) = 1 ∧
    (∀ p ∈ t.properties, argEntryLine p ∈ bodyLines server_name t) := by
  refine ⟨count_callLine_bodyLines server_name t, ?_, ?_⟩
  · unfold toolLines
    rw [List.count_append, List.count_append, count_callLine_bodyLines]
    have h1 : ([defLine t] : List String).count (callLine server_name t) = 0 := by
      rw [List.count_eq_zero]
      intro hmem
      simp only [List.mem_singleton] at hmem
      exact absurd (firstChar_callLine server_name t)
        (by rw [hmem, firstChar_defLine]; decide)
    have h2 : (docLines t).count (callLine server_name t) = 0 :=
      List.count_eq_zero.mpr (callLine_notMem_docLines server_name t hdesc)
    rw [h1, h2]
  · intro p hp
    unfold bodyLines
    simp only [List.mem_append, List.mem_map]
    exact Or.inl (Or.inr ⟨p, hp, rfl⟩)

/-- Witness for C5: the single-call property at the demo's
`get_data_chunk` descriptor. -/
theorem proxy_body_single_invocation_witness :
    (bodyLines "data_tools" sampleTool).count (callLine "data_tools" sampleTool) = 1 ∧
    (toolLines "data_tools" sampleTool).count (callLine "data_tools" sampleTool) = 1 ∧
    argEntryLine ("page", ⟨true, some "integer", some "The page number to fetch"⟩)
      ∈ bodyLines "data_tools" sampleTool := by
  have h := proxy_body_single_invocation "data_tools" sampleTool (by decide)
  exact ⟨h.1, h.2.1, h.2.2 _ (by decide)⟩

/-- Claim C6, counterexample: two distinct tool names, `a-b` and `a.b`,
sanitize to the same identifier `a_b`, yet generation does not fail:
`generate_wrapper_file` (a total function with no error path) emits both
`def a_b` headers — the second definition silently overwrites the first
when the module is imported — returns both names normally, and the
aggregator emits both export entries with no collision check. -/
theorem collision_counterexample :
    toolA.name ≠ toolB.name ∧
    sanitize_name toolA.name = sanitize_name toolB.name ∧
    (generate_wrapper_lines "srv" [toolA, toolB]).count "def a_b() -> Any:" = 2 ∧
    generate_wrapper_names [toolA, toolB] = ["a-b", "a.b"] ∧
    initAllEntries [("srv", ["a-b", "a.b"])] = ["    \"a-b\",", "    \"a.b\","] := by
  decide

/-- Claim C6, amended: generation does not surface sanitized-name
collisions.  Whenever a registry's tool list contains two tools whose
names sanitize to the same identifier (and whose parameter lists render
identically), the generated wrapper file contains their common `def`
header at least twice — so one definition silently overwrites the other
on import — generation still completes, returning every tool name, and
the top-level aggregator emits exactly one export entry per tool name
of every registry, with no deduplication or collision detection. -/
theorem collision_amended (sn : String) (t1 t2 : Tool) (pre mid post : List Tool)
    (hcol : sanitize_name t1.name = sanitize_name t2.name)
    (hsig : params_str t1 = params_str t2) :
    2 ≤ (generate_wrapper_lines sn (pre ++ [t1] ++ mid ++ [t2] ++ post)).count (defLine t1) ∧
    generate_wrapper_names (pre ++ [t1] ++ mid ++ [t2] ++ post)
      = (pre ++ [t1] ++ mid ++ [t2] ++ post).map Tool.name ∧
    (∀ server_tools : List (String × List String),
      (initAllEntries server_tools).length
        = (server_tools.flatMap (fun st => st.2)).length) := by
  have hdl : defLine t2 = defLine t1 := by
    unfold defLine; rw [hcol, hsig]
  refine ⟨?_, rfl, ?_⟩
  · have hc1 : 1 ≤ (toolLines sn t1).count (defLine t1) := by
      unfold toolLines
      rw [List.count_append, List.count_append]
      have : ([defLine t1] : List String).count (defLine t1) = 1 := by simp
      omega
    have hc2 : 1 ≤ (toolLines sn t2).count (defLine t1) := by
      unfold toolLines
      rw [List.count_append, List.count_append]
      have : ([defLine t2] : List String).count (defLine t1) = 1 := by
        rw [hdl]; simp
      omega
    unfold generate_wrapper_lines
    rw [List.count_append]
    have hfm : (pre ++ [t1] ++ mid ++ [t2] ++ post).flatMap (toolLines sn) =
        pre.flatMap (toolLines sn) ++ toolLines sn t1 ++ mid.flatMap (toolLines sn)
        ++ toolLines sn t2 ++ post.flatMap (toolLines sn) := by
      simp [List.flatMap_append]
    rw [hfm]
    rw [List.count_append, List.count_append, List.count_append, List.count_append]
    omega
  · intro st
    unfold initAllEntries
    rw [List.length_flatMap, List.length_flatMap]
    congr 1
    simp

/-- Witness for the amended C6: the colliding pair `a-b` / `a.b` in a
two-tool registry. -/
theorem collision_amended_witness :
    2 ≤ (generate_wrapper_lines "srv" ([] ++ [toolA] ++ [] ++ [toolB] ++ [])).count
        (defLine toolA) ∧
    generate_wrapper_names ([] ++ [toolA] ++ [] ++ [toolB] ++ []) = ["a-b", "a.b"] ∧
    (initAllEntries [("srv", ["a-b", "a.b"])]).length = 2 := by
  have h := collision_amended "srv" toolA toolB [] [] [] (by decide) (by decide)
  exact ⟨h.1, h.2.1.trans (by decide), (h.2.2 [("srv", ["a-b", "a.b"])]).trans (by decide)⟩

/-- Claim C7: `get_python_type` is total (a Lean function, never
raising) and maps each declared schema type to its Python type —
string→str, integer→int, number→float, boolean→bool, array→list,
object→dict, null→None — while a falsy (absent/empty) schema, a schema
without a type key, and every unrecognized type string all degrade to
`Any`. -/
theorem get_python_type_total :
    (∀ js : JsonSchema, js.isTruthy = false → get_python_type js = "Any") ∧
    (∀ d, get_python_type ⟨true, some "string", d⟩ = "str"
        ∧ get_python_type ⟨true, some "integer", d⟩ = "int"
        ∧ get_python_type ⟨true, some "number", d⟩ = "float"
        ∧ get_python_type ⟨true, some "boolean", d⟩ = "bool"
        ∧ get_python_type ⟨true, some "array", d⟩ = "list"
        ∧ get_python_type ⟨true, some "object", d⟩ = "dict"
        ∧ get_python_type ⟨true, some "null", d⟩ = "None"
        ∧ get_python_type ⟨true, none, d⟩ = "Any") ∧
    (∀ t : String, t ∉ (["string", "integer", "number", "boolean", "array",
        "object", "null"] : List String) →
      ∀ d, get_python_type ⟨true, some t, d⟩ = "Any") := by
  refine ⟨?_, ?_, ?_⟩
  · intro js h; simp [get_python_type, h]
  · intro d; exact ⟨rfl, rfl, rfl, rfl, rfl, rfl, rfl, rfl⟩
  · intro t ht d
    simp only [get_python_type, type_mapping, Option.getD_some]
    split_ifs with h1 h2 h3 h4 h5 h6 h7 <;> simp_all

/-- Witness for C7: the empty schema, a recognized type and an
unrecognized type, evaluated. -/
theorem get_python_type_total_witness :
    get_python_type JsonSchema.emptyDict = "Any" ∧
    get_python_type ⟨true, some "integer", none⟩ = "int" ∧
    get_python_type ⟨true, some "foo", none⟩ = "Any" := by
  have h := get_python_type_total
  exact ⟨h.1 JsonSchema.emptyDict rfl, (h.2.1 none).2.1, h.2.2 "foo" (by decide) none⟩

/-- Claim C8: for every page outside `1..30`, `get_data_chunk` returns —
without raising, the embedding being a total function — an object with
an `error` key and an empty `records` list, and the emitted client's
decode passes any envelope whose single text payload parses to this
object through unchanged as a structured result, not as a raised
error. -/
theorem get_data_chunk_out_of_range (page : Int) (h : page < 1 ∨ page > 30) :
    (get_data_chunk page).getField "error" =
      some (.jstr ("Invalid page number: " ++ toString page
        ++ ". Must be between 1 and 30.")) ∧
    (get_data_chunk page).getField "records" = some (.jlist []) ∧
    (∀ (parse : String → Option JVal) (s : String),
      parse s = some (get_data_chunk page) →
      decodeContent parse [Segment.text s] = .structured (get_data_chunk page)) := by
  have hc : get_data_chunk page = .jobj
      [("error", .jstr ("Invalid page number: " ++ toString page
          ++ ". Must be between 1 and 30.")),
       ("records", .jlist [])] := by
    unfold get_data_chunk
    rw [if_pos h]
  refine ⟨?_, ?_, ?_⟩
  · rw [hc]; rfl
  · rw [hc]; rfl
  · intro parse s hp
    simp [decodeContent, Segment.textOf, hp]

/-- Witness for C8: page 31, with the error object evaluated and a
concrete parse function mapping a payload string to it. -/
theorem get_data_chunk_out_of_range_witness :
    (get_data_chunk 31).getField "error" =
      some (.jstr "Invalid page number: 31. Must be between 1 and 30.") ∧
    (get_data_chunk 31).getField "records" = some (.jlist []) ∧
    decodeContent (fun _ => some (get_data_chunk 31)) [Segment.text "payload"]
      = .structured (get_data_chunk 31) := by
  have h := get_data_chunk_out_of_range 31 (by decide)
  exact ⟨h.1.trans (by rfl), h.2.1, h.2.2 _ "payload" rfl⟩

/-- Claim C9: `get_total_pages` returns 30 (it is a constant function of
no arguments, so on every call), and `get_data_chunk 1` returns an
object whose `records` list has exactly 10 entries. -/
theorem scenario_a_values :
    get_total_pages = 30 ∧ (chunkRecords 1).length = 10 := by
  exact ⟨rfl, by decide⟩

/-- Claim C10: for every valid page, `get_data_chunk page` carries
`page` and `total_pages = 30`, its `records` list has exactly 10
entries whose ids are precisely the consecutive integers from
`(page-1)*10 + 1` to `page*10` in increasing order (the arithmetic
progression over `range 10`) with no repetition; the id lists of two
distinct valid pages are disjoint; and every id from 1 to 300 lies in
the id list of exactly one valid page. -/
theorem get_data_chunk_valid_pages (page : Int) (h1 : 1 ≤ page) (h2 : page ≤ 30) :
    (get_data_chunk page).getField "page" = some (.jnum page) ∧
    (get_data_chunk page).getField "total_pages" = some (.jnum 30) ∧
    (chunkRecords page).length = 10 ∧
    chunkRecordIds page
      = (List.range 10).map (fun i : Nat => (page - 1) * 10 + (i : Int) + 1) ∧
    (chunkRecordIds page).Nodup ∧
    (∀ q : Int, 1 ≤ q → q ≤ 30 → q ≠ page →
      ∀ n, n ∈ chunkRecordIds page → n ∉ chunkRecordIds q) ∧
    (∀ n : Int, 1 ≤ n → n ≤ 300 →
      ∃! p : Int, (1 ≤ p ∧ p ≤ 30) ∧ n ∈ chunkRecordIds p) := by
  have hpage : (get_data_chunk page).getField "page" = some (.jnum page) ∧
      (get_data_chunk page).getField "total_pages" = some (.jnum 30) := by
    unfold get_data_chunk
    rw [if_neg (by omega)]
    constructor <;> simp [JVal.getField, jlookup]
  have hlen : (chunkRecords page).length = 10 := by
    unfold chunkRecords get_data_chunk
    rw [if_neg (by omega)]
    simp [JVal.getField, jlookup, JVal.asList]
  refine ⟨hpage.1, hpage.2, hlen, chunkRecordIds_eq page h1 h2, ?_, ?_, ?_⟩
  · rw [chunkRecordIds_eq page h1 h2]
    refine List.Nodup.map ?_ (List.nodup_range 10)
    intro a b hab
    dsimp only at hab
    omega
  · intro q hq1 hq2 hqp n hn
    rw [mem_chunkRecordIds page n h1 h2] at hn
    rw [mem_chunkRecordIds q n hq1 hq2]
    omega
  · intro n hn1 hn2
    refine ⟨(n - 1) / 10 + 1, ⟨⟨by omega, by omega⟩, ?_⟩, ?_⟩
    · rw [mem_chunkRecordIds _ _ (by omega) (by omega)]
      omega
    · rintro q ⟨⟨hq1, hq2⟩, hmem⟩
      rw [mem_chunkRecordIds _ _ hq1 hq2] at hmem
      omega

/-- Witness for C10: page 2, with the id list evaluated. -/
theorem get_data_chunk_valid_pages_witness :
    (get_data_chunk 2).getField "page" = some (.jnum 2) ∧
    (get_data_chunk 2).getField "total_pages" = some (.jnum 30) ∧
    (chunkRecords 2).length = 10 ∧
    chunkRecordIds 2 = [11, 12, 13, 14, 15, 16, 17, 18, 19, 20] := by
  have h := get_data_chunk_valid_pages 2 (by decide) (by decide)
  exact ⟨h.1, h.2.1, h.2.2.1, h.2.2.2.1.trans (by decide)⟩

end McpDemo
